import Mathlib

/-!
Shallow embedding of the cache-layer storage engine
(`src/cache/CacheEntry.ts`, `src/cache/EvictionPolicies.ts`, `CacheEngine`).

Conventions of the embedding:
* JavaScript `Map<string, _>` (insertion-ordered, unique keys) is modelled as
  an association list `List (String × _)` with first-match lookup, in-place
  replacement on re-`set`, and first-occurrence removal on `delete`.
* Timestamps (`Date.now()`) are an explicit `now : Int` argument, in
  milliseconds; every `Date.now()` read inside one engine method sees the
  same `now`.
* TTLs are integral seconds (`Int`); values are the JSON-ish payloads the
  engine distinguishes (string / number / boolean / null), with numbers as
  `Int`.
* Mutation of `this` becomes explicit state passing: every mutating method
  returns its JS return value paired with the updated engine.
-/

/-- Cache payloads as far as the engine inspects them: `calculateValueSize`
branches on string / number / boolean / null, and `increment` on number. -/
inductive Value where
  | vStr (s : String)
  | vNum (n : Int)
  | vBool (b : Bool)
  | vNull
  deriving DecidableEq, Repr

/-- `CacheEntry` from `src/cache/CacheEntry.ts`: key, value, creation time,
optional absolute expiry, last-access time and access count. -/
structure CacheEntry where
  key : String
  value : Value
  createdAt : Int
  expiresAt : Option Int
  lastAccessedAt : Int
  accessCount : Nat
  deriving DecidableEq, Repr

/-- The `CacheEntry` constructor: `expiresAt` is set to
`createdAt + ttl * 1000` when a ttl option is supplied and is (truthy and)
positive, and to `null` otherwise; `lastAccessedAt` starts at `createdAt`,
`accessCount` at 0. -/
def CacheEntry.make (key : String) (value : Value) (now : Int)
    (ttl : Option Int) : CacheEntry :=
  { key := key
    value := value
    createdAt := now
    expiresAt :=
      match ttl with
      | Option.some t => if 0 < t then Option.some (now + t * 1000) else Option.none
      | Option.none => Option.none
    lastAccessedAt := now
    accessCount := 0 }

/-- `isExpired`: false when `expiresAt` is null, else `Date.now() > expiresAt`. -/
def CacheEntry.isExpired (e : CacheEntry) (now : Int) : Bool :=
  match e.expiresAt with
  | Option.none => false
  | Option.some t => decide (t < now)

/-- `markAccessed`: refresh `lastAccessedAt` and bump `accessCount`. -/
def CacheEntry.markAccessed (e : CacheEntry) (now : Int) : CacheEntry :=
  { e with lastAccessedAt := now, accessCount := e.accessCount + 1 }

/-- `getRemainingTTL`: null (never expires) maps to `none`; otherwise
`Math.ceil(max 0 (expiresAt - now) / 1000)` seconds. -/
def CacheEntry.getRemainingTTL (e : CacheEntry) (now : Int) : Option Nat :=
  match e.expiresAt with
  | Option.none => Option.none
  | Option.some t => Option.some (((max 0 (t - now)).toNat + 999) / 1000)

/-- First-match lookup in a JS-`Map`-like association list. -/
def mapGet {α : Type} : List (String × α) → String → Option α
  | [], _ => Option.none
  | (k', v) :: rest, k => if k' = k then Option.some v else mapGet rest k

/-- JS `Map.set`: replace the binding in place if the key is present,
else append it at the end (insertion order). -/
def mapSet {α : Type} : List (String × α) → String → α → List (String × α)
  | [], k, v => [(k, v)]
  | (k', v') :: rest, k, v =>
    if k' = k then (k, v) :: rest else (k', v') :: mapSet rest k v

/-- JS `Map.delete`: remove the (first) binding of the key. -/
def mapDelete {α : Type} : List (String × α) → String → List (String × α)
  | [], _ => []
  | (k', v') :: rest, k => if k' = k then rest else (k', v') :: mapDelete rest k

/-- JS `Map.has`. -/
def mapHas {α : Type} (m : List (String × α)) (k : String) : Bool :=
  (mapGet m k).isSome

/-- The four eviction policies of `EvictionPolicies.ts`, each carrying its
auxiliary bookkeeping: LRU an access-order list, LFU a frequency map,
FIFO an insertion-order list, and no-eviction nothing. -/
inductive StrategyState where
  | lru (accessOrder : List String)
  | lfu (frequencies : List (String × Nat))
  | fifo (insertionOrder : List String)
  | noEviction
  deriving DecidableEq, Repr

/-- `shouldEvict`: always false for the no-eviction policy, else
`currentSize >= maxSize`. -/
def StrategyState.shouldEvict (s : StrategyState) (currentSize maxSize : Nat) : Bool :=
  match s with
  | .noEviction => false
  | _ => decide (maxSize ≤ currentSize)

/-- The stale-skipping loop shared by `LRUStrategy.selectVictim` and
`FIFOStrategy.selectVictim`: shift keys off the front of the order list until
one is found that still exists in the store (returned, left in place) or the
list is exhausted. Returns the victim and the updated order list. -/
def firstLive (store : List (String × CacheEntry)) :
    List String → Option String × List String
  | [] => (Option.none, [])
  | k :: rest =>
    if mapHas store k then (Option.some k, k :: rest) else firstLive store rest

/-- One step of `LFUStrategy.selectVictim`'s scan: the running victim is
replaced by the current entry when its frequency (`frequencies.get(key) || 0`)
is strictly smaller, or equal with a strictly older `lastAccessedAt`. -/
def lfuStep (fs : List (String × Nat)) (acc : Option (String × CacheEntry))
    (p : String × CacheEntry) : Option (String × CacheEntry) :=
  let f := (mapGet fs p.1).getD 0
  match acc with
  | Option.none => Option.some p
  | Option.some q =>
    let fv := (mapGet fs q.1).getD 0
    if f < fv ∨ (f = fv ∧ p.2.lastAccessedAt < q.2.lastAccessedAt) then
      Option.some p
    else
      Option.some q

/-- `LFUStrategy.selectVictim`: scan all store entries for the
minimum-frequency key, ties broken by oldest `lastAccessedAt`. -/
def lfuSelect (fs : List (String × Nat)) (store : List (String × CacheEntry)) :
    Option String :=
  (store.foldl (lfuStep fs) Option.none).map Prod.fst

/-- `selectVictim`, including the in-place pruning of stale keys that the
LRU/FIFO loops perform on their order lists: returns the victim (if any) and
the strategy state as left behind by the call. -/
def StrategyState.selectVictim (s : StrategyState)
    (store : List (String × CacheEntry)) : Option String × StrategyState :=
  match s with
  | .lru ao =>
    let r := firstLive store ao
    (r.1, .lru r.2)
  | .lfu fs => (lfuSelect fs store, .lfu fs)
  | .fifo io =>
    let r := firstLive store io
    (r.1, .fifo r.2)
  | .noEviction => (Option.none, .noEviction)

/-- `onAccess`: LRU moves the key to the back (removing a prior occurrence
first); LFU bumps its frequency (`(frequencies.get(key) || 0) + 1`); FIFO and
no-eviction ignore accesses. The `entry` argument is part of the interface but
unused by every concrete strategy. -/
def StrategyState.onAccess (s : StrategyState) (k : String) (_entry : CacheEntry) :
    StrategyState :=
  match s with
  | .lru ao => .lru (ao.erase k ++ [k])
  | .lfu fs => .lfu (mapSet fs k ((mapGet fs k).getD 0 + 1))
  | .fifo io => .fifo io
  | .noEviction => .noEviction

/-- `onInsert`: LRU/FIFO append the key to their order lists; LFU initializes
its frequency to 1. -/
def StrategyState.onInsert (s : StrategyState) (k : String) (_entry : CacheEntry) :
    StrategyState :=
  match s with
  | .lru ao => .lru (ao ++ [k])
  | .lfu fs => .lfu (mapSet fs k 1)
  | .fifo io => .fifo (io ++ [k])
  | .noEviction => .noEviction

/-- `onRemove`: LRU/FIFO drop the key's occurrence from their order lists;
LFU deletes its frequency entry. -/
def StrategyState.onRemove (s : StrategyState) (k : String) : StrategyState :=
  match s with
  | .lru ao => .lru (ao.erase k)
  | .lfu fs => .lfu (mapDelete fs k)
  | .fifo io => .fifo (io.erase k)
  | .noEviction => .noEviction

/-- `CacheEngine` state: the key→entry store, the active strategy's state, the
configuration the engine reads (`defaultTTL` seconds, the memory ceiling in
bytes) and the stats counters. -/
structure CacheEngine where
  store : List (String × CacheEntry)
  evictionStrategy : StrategyState
  defaultTTL : Int
  maxMemoryBytes : Nat
  hitCount : Nat
  missCount : Nat
  evictionCount : Nat
  expiredCount : Nat
  startTime : Int
  deriving DecidableEq, Repr

/-- `calculateValueSize`: string → UTF-8 byte length, number → 8,
boolean → 1, null/undefined → 8. -/
def calculateValueSize (v : Value) : Nat :=
  match v with
  | .vStr s => s.utf8ByteSize
  | .vNum _ => 8
  | .vBool _ => 1
  | .vNull => 8

/-- `calculateMemoryUsage`: per entry, UTF-8 key length + value size + a
64-byte overhead constant, summed over the store. -/
def calculateMemoryUsage (store : List (String × CacheEntry)) : Nat :=
  store.foldl (fun acc p => acc + p.1.utf8ByteSize + calculateValueSize p.2.value + 64) 0

/-- `isValidKey`: non-empty and at most 512 characters. -/
def isValidKey (k : String) : Bool :=
  decide (0 < k.length) && decide (k.length ≤ 512)

/-- `shouldEvict` at engine level: ask the strategy with the current usage and
the configured ceiling. -/
def CacheEngine.shouldEvictNow (e : CacheEngine) : Bool :=
  e.evictionStrategy.shouldEvict (calculateMemoryUsage e.store) e.maxMemoryBytes

/-- `CacheEngine.delete`: remove from the store and, when a key was actually
removed, unregister it from the strategy; returns whether a key was removed. -/
def CacheEngine.delete (e : CacheEngine) (k : String) : Bool × CacheEngine :=
  if mapHas e.store k then
    (true,
      { e with store := mapDelete e.store k
               evictionStrategy := e.evictionStrategy.onRemove k })
  else
    (false, e)

/-- The `while (evicted < maxEvictions && this.shouldEvict())` loop of
`evictEntries`; `fuel` is the number of evictions still allowed. The loop
breaks when the strategy yields no victim. Returns the number of entries
evicted and the resulting engine. The `delete`-failed arm stops the loop: it
is unreachable because `selectVictim` only returns keys present in the store
(the source loop would spin without progress there). -/
def evictLoop : Nat → CacheEngine → Nat × CacheEngine
  | 0, e => (0, e)
  | Nat.succ fuel, e =>
    if e.shouldEvictNow then
      let sv := e.evictionStrategy.selectVictim e.store
      match sv.1 with
      | Option.none => (0, { e with evictionStrategy := sv.2 })
      | Option.some victim =>
        let e1 := { e with evictionStrategy := sv.2 }
        let d := e1.delete victim
        if d.1 then
          let rest := evictLoop fuel { d.2 with evictionCount := d.2.evictionCount + 1 }
          (rest.1 + 1, rest.2)
        else
          (0, d.2)
    else
      (0, e)

/-- `evictEntries`: evict up to `ceil(store.size * 0.1)` victims while the
ceiling is breached; report success when something was evicted or the ceiling
is no longer breached. -/
def CacheEngine.evictEntries (e : CacheEngine) : Bool × CacheEngine :=
  let maxEvictions := (e.store.length + 9) / 10
  let r := evictLoop maxEvictions e
  (decide (0 < r.1) || !r.2.shouldEvictNow, r.2)

/-- The two insertion lines at the end of a successful `set`:
`this.store.set(key, entry)` followed by
`this.evictionStrategy.onInsert(key, entry)`. -/
def insertInto (e2 : CacheEngine) (k : String) (entry : CacheEntry) : CacheEngine :=
  { e2 with store := mapSet e2.store k entry
            evictionStrategy := e2.evictionStrategy.onInsert k entry }

/-- `CacheEngine.set`: validate the key; refuse an existing key unless
`options.overwrite` is truthy (an absent option behaves as `false` under
`!options.overwrite`); unregister an existing key from the strategy; resolve
the TTL (explicit option, else the configured default, with non-positive
mapped to "never"); run the eviction loop when the ceiling is reached,
failing the call if it reports failure; finally store the new entry and
notify the strategy of the insert. -/
def CacheEngine.set (e : CacheEngine) (now : Int) (k : String) (v : Value)
    (ttlOpt : Option Int) (overwriteOpt : Option Bool) : Bool × CacheEngine :=
  if !isValidKey k then
    (false, e)
  else
    let existing := mapGet e.store k
    if existing.isSome && !(overwriteOpt.getD false) then
      (false, e)
    else
      let e1 :=
        if existing.isSome then
          { e with evictionStrategy := e.evictionStrategy.onRemove k }
        else e
      let ttl := ttlOpt.getD e.defaultTTL
      let entry := CacheEntry.make k v now (if 0 < ttl then Option.some ttl else Option.none)
      if e1.shouldEvictNow then
        let r := e1.evictEntries
        if r.1 then
          (true, insertInto r.2 k entry)
        else
          (false, r.2)
      else
        (true, insertInto e1 k entry)

/-- `CacheEngine.get`: miss (counter bumped) when absent; when present but
expired, delete the entry and bump the miss and expired counters; otherwise
mark the entry accessed, notify the strategy, bump the hit counter and return
the value. -/
def CacheEngine.get (e : CacheEngine) (now : Int) (k : String) :
    Option Value × CacheEngine :=
  match mapGet e.store k with
  | Option.none => (Option.none, { e with missCount := e.missCount + 1 })
  | Option.some entry =>
    if entry.isExpired now then
      let e1 := (e.delete k).2
      (Option.none,
        { e1 with missCount := e1.missCount + 1, expiredCount := e1.expiredCount + 1 })
    else
      (Option.some entry.value,
        { e with store := mapSet e.store k (entry.markAccessed now)
                 evictionStrategy := e.evictionStrategy.onAccess k entry
                 hitCount := e.hitCount + 1 })

/-- `CacheEngine.has`: false when absent; when present but expired, delete the
entry (through `delete`, so strategy bookkeeping follows) and return false;
touches no counters. -/
def CacheEngine.has (e : CacheEngine) (now : Int) (k : String) : Bool × CacheEngine :=
  match mapGet e.store k with
  | Option.none => (false, e)
  | Option.some entry =>
    if entry.isExpired now then (false, (e.delete k).2) else (true, e)

/-- `CacheEngine.keys`: all currently non-expired keys, in store order. -/
def CacheEngine.keys (e : CacheEngine) (now : Int) : List String :=
  (e.store.filter (fun p => !(p.2.isExpired now))).map Prod.fst

/-- `CacheEngine.clear`: empties the store; the strategy state is not touched. -/
def CacheEngine.clear (e : CacheEngine) : CacheEngine :=
  { e with store := [] }

/-- `CacheEngine.updateTTL`: fails when the key is absent or expired (leaving
the store as is); otherwise swaps in a fresh entry with the same key/value and
the new TTL. No strategy notification. -/
def CacheEngine.updateTTL (e : CacheEngine) (now : Int) (k : String) (ttl : Int) :
    Bool × CacheEngine :=
  match mapGet e.store k with
  | Option.none => (false, e)
  | Option.some entry =>
    if entry.isExpired now then
      (false, e)
    else
      (true,
        { e with store :=
            mapSet e.store k (CacheEntry.make entry.key entry.value now (Option.some ttl)) })

/-- `CacheEngine.increment`: fails when the key is absent, expired, or its
value is not numeric; otherwise swaps in a fresh entry holding `value + delta`
whose ttl option is `entry.getRemainingTTL() || undefined` (so a remaining TTL
of 0 — falsy — becomes "no ttl"), notifies the strategy of an access with the
new entry, and returns the new value. -/
def CacheEngine.increment (e : CacheEngine) (now : Int) (k : String) (delta : Int) :
    Option Int × CacheEngine :=
  match mapGet e.store k with
  | Option.none => (Option.none, e)
  | Option.some entry =>
    if entry.isExpired now then
      (Option.none, e)
    else
      match entry.value with
      | Value.vNum n =>
        let newValue := n + delta
        let ttlOpt : Option Int :=
          match entry.getRemainingTTL now with
          | Option.none => Option.none
          | Option.some s => if s = 0 then Option.none else Option.some (s : Int)
        let newEntry := CacheEntry.make k (Value.vNum newValue) now ttlOpt
        (Option.some newValue,
          { e with store := mapSet e.store k newEntry
                   evictionStrategy := e.evictionStrategy.onAccess k newEntry })
      | _ => (Option.none, e)

/-- `Math.round` for the non-negative rationals the stats code feeds it:
round half up. -/
def jsRound (q : ℚ) : ℤ := ⌊q + 1 / 2⌋

/-- The slice of `CacheStats` the engine computes (uptime and the two memory
ceiling echoes included for completeness). -/
structure CacheStats where
  totalKeys : Nat
  memoryUsageBytes : Nat
  memoryUsageMB : ℚ
  hitCount : Nat
  missCount : Nat
  hitRate : ℚ
  evictionCount : Nat
  expiredCount : Nat
  uptime : Int
  maxMemoryBytes : Nat

/-- `CacheEngine.getStats`: a pure read — the method mutates nothing.
`hitRate` is `Math.round((hit / total) * 10000) / 100` with the ratio taken
as 0 when no operation has been counted. -/
def CacheEngine.getStats (e : CacheEngine) (now : Int) : CacheStats :=
  let memoryUsageBytes := calculateMemoryUsage e.store
  let totalOperations := e.hitCount + e.missCount
  let hitRatio : ℚ :=
    if 0 < totalOperations then (e.hitCount : ℚ) / (totalOperations : ℚ) else 0
  { totalKeys := e.store.length
    memoryUsageBytes := memoryUsageBytes
    memoryUsageMB := (jsRound (((memoryUsageBytes : ℚ) / (1024 * 1024)) * 100) : ℚ) / 100
    hitCount := e.hitCount
    missCount := e.missCount
    hitRate := (jsRound (hitRatio * 10000) : ℚ) / 100
    evictionCount := e.evictionCount
    expiredCount := e.expiredCount
    uptime := now - e.startTime
    maxMemoryBytes := e.maxMemoryBytes }

/-- A fresh engine with the given strategy and configuration, as built by the
`CacheEngine` constructor. -/
def mkEngine (strategy : StrategyState) (defaultTTL : Int) (maxMemoryBytes : Nat)
    (startTime : Int) : CacheEngine :=
  { store := []
    evictionStrategy := strategy
    defaultTTL := defaultTTL
    maxMemoryBytes := maxMemoryBytes
    hitCount := 0
    missCount := 0
    evictionCount := 0
    expiredCount := 0
    startTime := startTime }

/-! ## Helper lemmas -/

theorem mapGet_mapSet_self {α : Type} (m : List (String × α)) (k : String) (v : α) :
    mapGet (mapSet m k v) k = Option.some v := by
  induction m with
  | nil => simp [mapSet, mapGet]
  | cons p rest ih =>
    obtain ⟨k', v'⟩ := p
    by_cases h : k' = k
    · simp [mapSet, mapGet, h]
    · simp [mapSet, mapGet, h, ih]

theorem mem_mapHas {α : Type} (m : List (String × α)) (p : String × α)
    (h : p ∈ m) : mapHas m p.1 = true := by
  induction m with
  | nil => simp at h
  | cons q rest ih =>
    obtain ⟨k', v'⟩ := q
    rcases List.mem_cons.mp h with h1 | h2
    · subst h1
      simp [mapHas, mapGet]
    · by_cases hk : k' = p.1
      · simp [mapHas, mapGet, hk]
      · simpa [mapHas, mapGet, hk] using ih h2

theorem make_not_expired (k : String) (v : Value) (now : Int) (ttl : Option Int) :
    (CacheEntry.make k v now ttl).isExpired now = false := by
  unfold CacheEntry.make CacheEntry.isExpired
  cases ttl with
  | none => rfl
  | some t =>
    by_cases h : 0 < t
    · simp only [if_pos h]
      simp only [decide_eq_false_iff_not]
      omega
    · simp only [if_neg h]

theorem firstLive_mem (store : List (String × CacheEntry)) (l : List String)
    (k : String) (h : (firstLive store l).1 = Option.some k) :
    mapHas store k = true := by
  induction l with
  | nil => simp [firstLive] at h
  | cons k' rest ih =>
    by_cases hl : mapHas store k'
    · simp [firstLive, hl] at h
      subst h
      exact hl
    · simpa [firstLive, hl] using ih (by simpa [firstLive, hl] using h)

/-- The (non-strict) priority order the LFU scan minimizes: smaller frequency
first, ties by older `lastAccessedAt`. -/
def lfuLe (fs : List (String × Nat)) (p q : String × CacheEntry) : Prop :=
  (mapGet fs p.1).getD 0 < (mapGet fs q.1).getD 0 ∨
    ((mapGet fs p.1).getD 0 = (mapGet fs q.1).getD 0 ∧
      p.2.lastAccessedAt ≤ q.2.lastAccessedAt)

theorem lfuLe_refl (fs : List (String × Nat)) (p : String × CacheEntry) :
    lfuLe fs p p := by
  unfold lfuLe
  omega

theorem lfuLe_trans (fs : List (String × Nat)) (p q r : String × CacheEntry)
    (h1 : lfuLe fs p q) (h2 : lfuLe fs q r) : lfuLe fs p r := by
  unfold lfuLe at h1 h2 ⊢
  omega

theorem lfuStep_isSome (fs : List (String × Nat)) (acc : Option (String × CacheEntry))
    (p : String × CacheEntry) : (lfuStep fs acc p).isSome = true := by
  unfold lfuStep
  cases acc with
  | none => rfl
  | some q => dsimp only; split <;> rfl

theorem lfuFold_isSome (fs : List (String × Nat)) (l : List (String × CacheEntry))
    (acc : Option (String × CacheEntry)) (hacc : acc.isSome = true) :
    (l.foldl (lfuStep fs) acc).isSome = true := by
  induction l generalizing acc with
  | nil => simpa using hacc
  | cons p rest ih =>
    simp only [List.foldl_cons]
    exact ih (lfuStep fs acc p) (lfuStep_isSome fs acc p)

theorem lfuFold_mem (fs : List (String × Nat)) (l : List (String × CacheEntry))
    (acc : Option (String × CacheEntry)) (r : String × CacheEntry)
    (h : l.foldl (lfuStep fs) acc = Option.some r) :
    acc = Option.some r ∨ r ∈ l := by
  induction l generalizing acc with
  | nil => exact Or.inl h
  | cons p rest ih =>
    simp only [List.foldl_cons] at h
    rcases ih (lfuStep fs acc p) h with h1 | h2
    · unfold lfuStep at h1
      cases acc with
      | none =>
        simp only [Option.some.injEq] at h1
        exact Or.inr (List.mem_cons.mpr (Or.inl h1.symm))
      | some q =>
        dsimp only at h1
        split at h1
        · simp only [Option.some.injEq] at h1
          exact Or.inr (List.mem_cons.mpr (Or.inl h1.symm))
        · exact Or.inl h1
    · exact Or.inr (List.mem_cons.mpr (Or.inr h2))

theorem lfuStep_le (fs : List (String × Nat)) (q p : String × CacheEntry) :
    (lfuStep fs (Option.some q) p = Option.some p ∧ lfuLe fs p q) ∨
    (lfuStep fs (Option.some q) p = Option.some q ∧ lfuLe fs q p) := by
  unfold lfuStep
  dsimp only
  split
  · rename_i hc
    left
    refine ⟨rfl, ?_⟩
    unfold lfuLe
    omega
  · rename_i hc
    right
    refine ⟨rfl, ?_⟩
    unfold lfuLe
    push_neg at hc
    omega

theorem lfuFold_min (fs : List (String × Nat)) (l : List (String × CacheEntry))
    (acc : Option (String × CacheEntry)) (r : String × CacheEntry)
    (h : l.foldl (lfuStep fs) acc = Option.some r) :
    (∀ q, acc = Option.some q → lfuLe fs r q) ∧ (∀ p ∈ l, lfuLe fs r p) := by
  induction l generalizing acc with
  | nil =>
    simp only [List.foldl_nil] at h
    refine ⟨fun q hq => ?_, by simp⟩
    rw [h] at hq
    cases hq
    exact lfuLe_refl fs r
  | cons p rest ih =>
    simp only [List.foldl_cons] at h
    have ihh := ih (lfuStep fs acc p) h
    constructor
    · intro q hq
      subst hq
      rcases lfuStep_le fs q p with ⟨hs, hle⟩ | ⟨hs, hle⟩
      · exact lfuLe_trans fs r p q (ihh.1 p hs) hle
      · exact ihh.1 q hs
    · intro x hx
      rcases List.mem_cons.mp hx with h1 | h2
      · subst h1
        cases acc with
        | none =>
          have : lfuStep fs Option.none x = Option.some x := rfl
          exact ihh.1 x this
        | some q =>
          rcases lfuStep_le fs q x with ⟨hs, _⟩ | ⟨hs, hle⟩
          · exact ihh.1 x hs
          · exact lfuLe_trans fs r q x (ihh.1 q hs) hle
      · exact ihh.2 x h2

/-! ## Claim theorems -/

/-- Claim C9: for every eviction policy and every store, whenever
`selectVictim` returns a key rather than none, that key is present in the
store at the time of selection; a stale bookkeeping key whose entry has
already been removed from the store is never returned as the victim. -/
theorem selectVictim_in_store (s : StrategyState) (store : List (String × CacheEntry))
    (k : String) (h : (s.selectVictim store).1 = Option.some k) :
    mapHas store k = true := by
  cases s with
  | lru ao => exact firstLive_mem store ao k h
  | fifo io => exact firstLive_mem store io k h
  | lfu fs =>
    simp only [StrategyState.selectVictim, lfuSelect] at h
    rcases Option.map_eq_some'.mp h with ⟨r, hr, hk⟩
    rcases lfuFold_mem fs store Option.none r hr with h1 | h2
    · exact absurd h1 (by simp)
    · rw [← hk]
      exact mem_mapHas store r h2
  | noEviction => exact absurd h (by simp [StrategyState.selectVictim])

/-- A strategy state with one stale key ("gone") in front of a live one, used
to exercise the stale-skipping path of `selectVictim`. -/
def staleLruState : StrategyState := StrategyState.lru ["gone", "b"]

/-- A one-entry store for the stale-bookkeeping scenario. -/
def staleLruStore : List (String × CacheEntry) :=
  [("b", CacheEntry.make "b" Value.vNull 0 Option.none)]

/-- Witness for C9: with stale bookkeeping `["gone", "b"]` over a store
holding only "b", the victim is "b" and it is indeed in the store. -/
theorem selectVictim_in_store_witness :
    (staleLruState.selectVictim staleLruStore).1 = Option.some "b" ∧
    mapHas staleLruStore "b" = true :=
  ⟨by decide, selectVictim_in_store staleLruState staleLruStore "b" (by decide)⟩

/-- Claim C7: under the LFU policy, a key's frequency counter is set to 1 on
insert and incremented by exactly 1 on each access, and `selectVictim` returns
a key of the store that is minimal in the (frequency, lastAccessedAt) order —
minimum frequency first, ties broken by oldest `lastAccessedAt` — and returns
some key whenever the store is non-empty. -/
theorem lfu_policy_spec :
    (∀ (fs : List (String × Nat)) (k : String) (entry : CacheEntry),
      ∃ fs', (StrategyState.lfu fs).onInsert k entry = StrategyState.lfu fs' ∧
        mapGet fs' k = Option.some 1) ∧
    (∀ (fs : List (String × Nat)) (k : String) (entry : CacheEntry) (f : Nat),
      mapGet fs k = Option.some f →
      ∃ fs', (StrategyState.lfu fs).onAccess k entry = StrategyState.lfu fs' ∧
        mapGet fs' k = Option.some (f + 1)) ∧
    (∀ (fs : List (String × Nat)) (store : List (String × CacheEntry)) (k : String),
      lfuSelect fs store = Option.some k →
      mapHas store k = true ∧
      ∃ ek, (k, ek) ∈ store ∧ ∀ p ∈ store, lfuLe fs (k, ek) p) ∧
    (∀ (fs : List (String × Nat)) (store : List (String × CacheEntry)),
      store ≠ [] → (lfuSelect fs store).isSome = true) := by
  refine ⟨?_, ?_, ?_, ?_⟩
  · intro fs k entry
    exact ⟨mapSet fs k 1, rfl, mapGet_mapSet_self fs k 1⟩
  · intro fs k entry f hf
    refine ⟨mapSet fs k ((mapGet fs k).getD 0 + 1), rfl, ?_⟩
    rw [mapGet_mapSet_self, hf]
    rfl
  · intro fs store k h
    unfold lfuSelect at h
    rcases Option.map_eq_some'.mp h with ⟨r, hr, hk⟩
    obtain ⟨rk, re⟩ := r
    cases hk
    have hmem : (rk, re) ∈ store := by
      rcases lfuFold_mem fs store Option.none (rk, re) hr with h1 | h2
      · exact absurd h1 (by simp)
      · exact h2
    refine ⟨mem_mapHas store (rk, re) hmem, re, hmem, ?_⟩
    exact (lfuFold_min fs store Option.none (rk, re) hr).2
  · intro fs store hne
    cases store with
    | nil => exact absurd rfl hne
    | cons p rest =>
      unfold lfuSelect
      simp only [List.foldl_cons]
      have h1 := lfuFold_isSome fs rest (lfuStep fs Option.none p) (lfuStep_isSome fs Option.none p)
      rcases Option.isSome_iff_exists.mp h1 with ⟨r, hr⟩
      rw [hr]
      rfl

/-- Concrete LFU frequency table for the C7 witness. -/
def lfuWitFreqs : List (String × Nat) := [("a", 2), ("b", 1), ("c", 1)]

/-- Concrete store for the C7 witness: "b" and "c" tie at frequency 1 and
"c" has the older `lastAccessedAt`. -/
def lfuWitStore : List (String × CacheEntry) :=
  [("a", { key := "a", value := Value.vNull, createdAt := 0, expiresAt := Option.none,
           lastAccessedAt := 5, accessCount := 0 }),
   ("b", { key := "b", value := Value.vNull, createdAt := 0, expiresAt := Option.none,
           lastAccessedAt := 9, accessCount := 0 }),
   ("c", { key := "c", value := Value.vNull, createdAt := 0, expiresAt := Option.none,
           lastAccessedAt := 3, accessCount := 0 })]

/-- Witness for C7: on the concrete table the victim is "c" (frequency 1,
oldest access among the frequency-1 keys), and it is minimal in the scan
order. -/
theorem lfu_policy_spec_witness :
    lfuSelect lfuWitFreqs lfuWitStore = Option.some "c" ∧
    (mapHas lfuWitStore "c" = true ∧
      ∃ ek, ("c", ek) ∈ lfuWitStore ∧ ∀ p ∈ lfuWitStore, lfuLe lfuWitFreqs ("c", ek) p) :=
  ⟨by decide, lfu_policy_spec.2.2.1 lfuWitFreqs lfuWitStore "c" (by decide)⟩

/-- Claim C3 (amended): `clear()` empties the store — `keys()` is empty and
`getStats().totalKeys` is 0 — but the active strategy's auxiliary bookkeeping
is left untouched, not reset (stale keys remain, to be lazily skipped). -/
theorem clear_behavior (e : CacheEngine) (now : Int) :
    (CacheEngine.clear e).store = [] ∧
    (CacheEngine.clear e).keys now = [] ∧
    ((CacheEngine.clear e).getStats now).totalKeys = 0 ∧
    (CacheEngine.clear e).evictionStrategy = e.evictionStrategy :=
  ⟨rfl, rfl, rfl, rfl⟩

/-- An engine holding one key "a" under LRU, whose access-order bookkeeping
therefore holds "a". -/
def clearCexEngine : CacheEngine :=
  ((mkEngine (StrategyState.lru []) 3600 104857600 0).set 0 "a"
    Value.vNull Option.none Option.none).2

/-- Counterexample to claim C3 as stated: after `clear()` the store is empty
(`keys()` empty, `totalKeys` 0) but the LRU access-order list still holds the
cleared key "a" — the bookkeeping is not reset to empty. -/
theorem clear_strategy_cex :
    clearCexEngine.clear.keys 0 = [] ∧
    (clearCexEngine.clear.getStats 0).totalKeys = 0 ∧
    clearCexEngine.clear.evictionStrategy = StrategyState.lru ["a"] ∧
    ¬ clearCexEngine.clear.evictionStrategy = StrategyState.lru [] := by
  refine ⟨by decide, by decide, by decide, by decide⟩

/-- Claim C8: `getStats().hitRate` equals
`hitCount / (hitCount + missCount) × 100` rounded to two decimal places, and
0 when no hit- or miss-counting operation has occurred yet. `getStats` is a
pure read in the embedding (its type returns only the stats record), mirroring
that the source method never writes the counters; the reported `hitCount` and
`missCount` are the engine's unchanged counters. -/
theorem getStats_hitRate_spec (e : CacheEngine) (now : Int) :
    ((e.getStats now).hitRate =
      if e.hitCount + e.missCount = 0 then 0
      else (jsRound ((((e.hitCount : ℚ) / ((e.hitCount : ℚ) + (e.missCount : ℚ))) * 100) * 100) : ℚ) / 100) ∧
    (e.getStats now).hitCount = e.hitCount ∧
    (e.getStats now).missCount = e.missCount := by
  refine ⟨?_, rfl, rfl⟩
  unfold CacheEngine.getStats
  dsimp only
  by_cases h : e.hitCount + e.missCount = 0
  · rw [if_pos h, if_neg (by omega)]
    norm_num [jsRound]
  · have hpos : 0 < e.hitCount + e.missCount := Nat.pos_of_ne_zero h
    rw [if_pos hpos, if_neg h]
    have harg : ((e.hitCount : ℚ) / ((e.hitCount + e.missCount : Nat) : ℚ)) * 10000 =
        (((e.hitCount : ℚ) / ((e.hitCount : ℚ) + (e.missCount : ℚ))) * 100) * 100 := by
      push_cast
      ring
    rw [harg]

/-- Claim C10: `has` on a present-but-expired key removes the entry from the
store and the strategy bookkeeping and returns false while leaving the hit,
miss and expired counters unchanged, whereas the same expired lookup through
`get` bumps both the miss counter and the expired counter (and not the hit
counter). -/
theorem has_vs_get_expired (e : CacheEngine) (now : Int) (k : String)
    (entry : CacheEntry)
    (hmem : mapGet e.store k = Option.some entry)
    (hexp : entry.isExpired now = true) :
    (e.has now k).1 = false ∧
    (e.has now k).2.store = mapDelete e.store k ∧
    (e.has now k).2.evictionStrategy = e.evictionStrategy.onRemove k ∧
    (e.has now k).2.hitCount = e.hitCount ∧
    (e.has now k).2.missCount = e.missCount ∧
    (e.has now k).2.expiredCount = e.expiredCount ∧
    (e.get now k).1 = Option.none ∧
    (e.get now k).2.missCount = e.missCount + 1 ∧
    (e.get now k).2.expiredCount = e.expiredCount + 1 ∧
    (e.get now k).2.hitCount = e.hitCount := by
  have hhas : mapHas e.store k = true := by simp [mapHas, hmem]
  unfold CacheEngine.has CacheEngine.get CacheEngine.delete
  rw [hmem]
  simp [hexp, hhas]

/-- The expired entry used by the C10 witness. -/
def expiredEntryW : CacheEntry :=
  { key := "k", value := Value.vNum 5, createdAt := 0, expiresAt := Option.some 1000,
    lastAccessedAt := 0, accessCount := 0 }

/-- Engine holding only the expired entry, for the C10 witness. -/
def expiredEngineW : CacheEngine :=
  { mkEngine (StrategyState.lru ["k"]) 3600 104857600 0 with
      store := [("k", expiredEntryW)] }

/-- Witness for C10 at a concrete expired entry (expiry 1000, looked up at
time 2000). -/
theorem has_vs_get_expired_witness :
    (expiredEngineW.has 2000 "k").1 = false ∧
    (expiredEngineW.has 2000 "k").2.store = mapDelete expiredEngineW.store "k" ∧
    (expiredEngineW.has 2000 "k").2.evictionStrategy =
      expiredEngineW.evictionStrategy.onRemove "k" ∧
    (expiredEngineW.has 2000 "k").2.hitCount = expiredEngineW.hitCount ∧
    (expiredEngineW.has 2000 "k").2.missCount = expiredEngineW.missCount ∧
    (expiredEngineW.has 2000 "k").2.expiredCount = expiredEngineW.expiredCount ∧
    (expiredEngineW.get 2000 "k").1 = Option.none ∧
    (expiredEngineW.get 2000 "k").2.missCount = expiredEngineW.missCount + 1 ∧
    (expiredEngineW.get 2000 "k").2.expiredCount = expiredEngineW.expiredCount + 1 ∧
    (expiredEngineW.get 2000 "k").2.hitCount = expiredEngineW.hitCount :=
  has_vs_get_expired expiredEngineW 2000 "k" expiredEntryW (by decide) (by decide)

/-- Claim C4 (amended): on a present-but-expired entry, `get` returns the
failure sentinel and deletes the entry from the store and the strategy
bookkeeping; `updateTTL` and `increment` return the failure sentinel but leave
the expired entry (and the whole engine) untouched; `delete` removes the entry
but returns true (success), not a failure sentinel. -/
theorem expired_key_op_behavior (e : CacheEngine) (now : Int) (k : String)
    (entry : CacheEntry) (t d : Int)
    (hmem : mapGet e.store k = Option.some entry)
    (hexp : entry.isExpired now = true) :
    (e.get now k).1 = Option.none ∧
    (e.get now k).2.store = mapDelete e.store k ∧
    (e.get now k).2.evictionStrategy = e.evictionStrategy.onRemove k ∧
    e.updateTTL now k t = (false, e) ∧
    e.increment now k d = (Option.none, e) ∧
    (e.delete k).1 = true ∧
    (e.delete k).2.store = mapDelete e.store k := by
  have hhas : mapHas e.store k = true := by simp [mapHas, hmem]
  unfold CacheEngine.get CacheEngine.updateTTL CacheEngine.increment CacheEngine.delete
  rw [hmem]
  simp [hexp, hhas]

/-- The expired entry of the C4 scenarios (expiry 1000, operations at 2000). -/
def expiredEntryC4 : CacheEntry :=
  { key := "k", value := Value.vNum 5, createdAt := 0, expiresAt := Option.some 1000,
    lastAccessedAt := 0, accessCount := 0 }

/-- Engine holding only the expired C4 entry. -/
def expiredEngineC4 : CacheEngine :=
  { mkEngine (StrategyState.lru ["k"]) 3600 104857600 0 with
      store := [("k", expiredEntryC4)] }

/-- Counterexample to claim C4 as stated: on a present-but-expired entry,
`delete` returns true — success, not the failure sentinel — and `updateTTL`
and `increment` return their failure sentinels without deleting the expired
entry, which remains in the store. -/
theorem expired_key_op_cex :
    expiredEntryC4.isExpired 2000 = true ∧
    (expiredEngineC4.delete "k").1 = true ∧
    (expiredEngineC4.updateTTL 2000 "k" 5).1 = false ∧
    mapHas (expiredEngineC4.updateTTL 2000 "k" 5).2.store "k" = true ∧
    (expiredEngineC4.increment 2000 "k" 1).1 = Option.none ∧
    mapHas (expiredEngineC4.increment 2000 "k" 1).2.store "k" = true := by
  refine ⟨by decide, by decide, by decide, by decide, by decide, by decide⟩

/-- Witness for the amended C4 at the concrete expired entry. -/
theorem expired_key_op_behavior_witness :
    (expiredEngineC4.get 2000 "k").1 = Option.none ∧
    (expiredEngineC4.get 2000 "k").2.store = mapDelete expiredEngineC4.store "k" ∧
    (expiredEngineC4.get 2000 "k").2.evictionStrategy =
      expiredEngineC4.evictionStrategy.onRemove "k" ∧
    expiredEngineC4.updateTTL 2000 "k" 7 = (false, expiredEngineC4) ∧
    expiredEngineC4.increment 2000 "k" 3 = (Option.none, expiredEngineC4) ∧
    (expiredEngineC4.delete "k").1 = true ∧
    (expiredEngineC4.delete "k").2.store = mapDelete expiredEngineC4.store "k" :=
  expired_key_op_behavior expiredEngineC4 2000 "k" expiredEntryC4 7 3 (by decide) (by decide)

/-- Claim C5 (amended): `increment` on a present, non-expired key holding a
numeric value replaces the entry with `value + delta`, notifies the strategy
of an access with the replacement entry, and returns the new value; a
never-expiring entry stays never-expiring, and a positive remaining TTL (in
seconds, as computed by `getRemainingTTL`) is carried over to the replacement;
but a remaining TTL of exactly 0 (a lookup at the exact expiry instant) is
falsy under `getRemainingTTL() || undefined`, so the replacement then never
expires instead of keeping a finite TTL. On a non-numeric value `increment`
returns the failure sentinel and leaves the engine unchanged. -/
theorem increment_ttl_behavior (e : CacheEngine) (now : Int) (k : String)
    (entry : CacheEntry) (delta : Int)
    (hmem : mapGet e.store k = Option.some entry)
    (hlive : entry.isExpired now = false) :
    (∀ n : Int, entry.value = Value.vNum n →
      ∃ ne : CacheEntry,
        (e.increment now k delta).1 = Option.some (n + delta) ∧
        (e.increment now k delta).2.store = mapSet e.store k ne ∧
        (e.increment now k delta).2.evictionStrategy =
          e.evictionStrategy.onAccess k ne ∧
        ne.value = Value.vNum (n + delta) ∧
        (entry.expiresAt = Option.none → ne.expiresAt = Option.none) ∧
        (∀ s : Nat, 0 < s → entry.getRemainingTTL now = Option.some s →
          ne.getRemainingTTL now = Option.some s) ∧
        (entry.getRemainingTTL now = Option.some 0 → ne.expiresAt = Option.none)) ∧
    ((∀ n : Int, entry.value ≠ Value.vNum n) →
      e.increment now k delta = (Option.none, e)) := by
  constructor
  · intro n hv
    unfold CacheEngine.increment
    rw [hmem]
    simp only [hlive, Bool.false_eq_true, if_false, if_neg]
    rw [hv]
    dsimp only
    refine ⟨_, rfl, rfl, rfl, rfl, ?_, ?_, ?_⟩
    · intro h
      have hr : entry.getRemainingTTL now = Option.none := by
        unfold CacheEntry.getRemainingTTL
        rw [h]
      rw [hr]
      rfl
    · intro s hs hr
      rw [hr]
      dsimp only
      rw [if_neg (by omega : ¬ s = 0)]
      have hmake : (CacheEntry.make k (Value.vNum (n + delta)) now
          (Option.some (s : Int))).expiresAt = Option.some (now + (s : Int) * 1000) := by
        unfold CacheEntry.make
        dsimp only
        rw [if_pos (by exact_mod_cast hs : (0 : Int) < (s : Int))]
      unfold CacheEntry.getRemainingTTL
      rw [hmake]
      dsimp only
      simp only [Option.some.injEq]
      omega
    · intro hr
      rw [hr]
      rfl
  · intro h
    unfold CacheEngine.increment
    rw [hmem]
    simp only [hlive, Bool.false_eq_true, if_false, if_neg]

/-- A numeric entry whose expiry instant is exactly 1000, incremented at
time 1000: not yet expired, remaining TTL 0 seconds. -/
def boundaryEntryC5 : CacheEntry :=
  { key := "c", value := Value.vNum 10, createdAt := 0, expiresAt := Option.some 1000,
    lastAccessedAt := 0, accessCount := 0 }

/-- Engine for the C5 boundary scenario. -/
def boundaryEngineC5 : CacheEngine :=
  { mkEngine StrategyState.noEviction 3600 104857600 0 with
      store := [("c", boundaryEntryC5)] }

/-- Counterexample to claim C5 as stated: at the exact expiry instant the
entry is live with the finite remaining TTL 0, yet the replacement entry
written by `increment` has `expiresAt = null` — its remaining TTL is "never"
rather than the carried-over finite value. -/
theorem increment_zero_ttl_cex :
    boundaryEntryC5.isExpired 1000 = false ∧
    boundaryEntryC5.getRemainingTTL 1000 = Option.some 0 ∧
    (boundaryEngineC5.increment 1000 "c" 1).1 = Option.some 11 ∧
    (mapGet (boundaryEngineC5.increment 1000 "c" 1).2.store "c").map
      CacheEntry.expiresAt = Option.some Option.none ∧
    (mapGet (boundaryEngineC5.increment 1000 "c" 1).2.store "c").map
      (fun ne => ne.getRemainingTTL 1000) = Option.some Option.none := by
  refine ⟨by decide, by decide, by decide, by decide, by decide⟩

/-- A numeric entry with 600 ms left (remaining TTL 1 second after ceiling),
incremented at time 400. -/
def carriedEntryC5 : CacheEntry :=
  { key := "c", value := Value.vNum 10, createdAt := 0, expiresAt := Option.some 1000,
    lastAccessedAt := 0, accessCount := 0 }

/-- Engine for the C5 carried-TTL witness. -/
def carriedEngineC5 : CacheEngine :=
  { mkEngine StrategyState.noEviction 3600 104857600 0 with
      store := [("c", carriedEntryC5)] }

/-- Witness for the amended C5 at a concrete live numeric entry with a
positive remaining TTL. -/
theorem increment_ttl_behavior_witness :
    ∃ ne : CacheEntry,
      (carriedEngineC5.increment 400 "c" 5).1 = Option.some 15 ∧
      (carriedEngineC5.increment 400 "c" 5).2.store =
        mapSet carriedEngineC5.store "c" ne ∧
      (carriedEngineC5.increment 400 "c" 5).2.evictionStrategy =
        carriedEngineC5.evictionStrategy.onAccess "c" ne ∧
      ne.value = Value.vNum 15 ∧
      ne.getRemainingTTL 400 = Option.some 1 := by
  obtain ⟨ne, h1, h2, h3, h4, _, h6, _⟩ :=
    (increment_ttl_behavior carriedEngineC5 400 "c" carriedEntryC5 5
      (by decide) (by decide)).1 10 (by decide)
  exact ⟨ne, h1, h2, h3, h4, h6 1 (by decide) (by decide)⟩

theorem get_after_insert (e2 : CacheEngine) (now : Int) (k : String)
    (entry : CacheEntry) (hlive : entry.isExpired now = false) :
    ((insertInto e2 k entry).get now k).1 = Option.some entry.value := by
  unfold insertInto CacheEngine.get
  dsimp only
  rw [mapGet_mapSet_self]
  simp [hlive]

theorem set_success_shape (e : CacheEngine) (now : Int) (k : String) (v : Value)
    (ttlOpt : Option Int) (ow : Option Bool)
    (h : (e.set now k v ttlOpt ow).1 = true) :
    ∃ e2 : CacheEngine,
      (e.set now k v ttlOpt ow).2 =
        insertInto e2 k (CacheEntry.make k v now
          (if 0 < ttlOpt.getD e.defaultTTL then Option.some (ttlOpt.getD e.defaultTTL)
           else Option.none)) := by
  rcases hset : e.set now k v ttlOpt ow with ⟨b, e'⟩
  rw [hset] at h
  dsimp only at h
  subst h
  simp only [CacheEngine.set] at hset
  set mkent := CacheEntry.make k v now
    (if 0 < ttlOpt.getD e.defaultTTL then Option.some (ttlOpt.getD e.defaultTTL)
     else Option.none) with hmk
  clear hmk
  split at hset
  · exact absurd hset (by simp)
  · split at hset
    · exact absurd hset (by simp)
    · (split at hset) <;> (try split at hset) <;> (try split at hset) <;>
        first
        | (simp only [Prod.mk.injEq, true_and] at hset
           exact ⟨_, hset.symm⟩)
        | simp at hset

/-- Claim C6 (amended): whenever `set(k, v)` reports success, an immediate
`get(k)` returns v; and a successful `set` whose explicit TTL is zero or
negative stores an entry with `expiresAt = null` — "never expires", not
"already expired". (As stated over all engine states the round-trip fails:
`set` can return failure, e.g. under eviction exhaustion, see the
counterexample.) -/
theorem set_get_roundtrip (e : CacheEngine) (now : Int) (k : String) (v : Value)
    (ttlOpt : Option Int) (ow : Option Bool)
    (h : (e.set now k v ttlOpt ow).1 = true) :
    ((e.set now k v ttlOpt ow).2.get now k).1 = Option.some v ∧
    (∀ t : Int, ttlOpt = Option.some t → t ≤ 0 →
      mapGet (e.set now k v ttlOpt ow).2.store k =
        Option.some (CacheEntry.make k v now Option.none)) := by
  obtain ⟨e2, he2⟩ := set_success_shape e now k v ttlOpt ow h
  rw [he2]
  constructor
  · have hg := get_after_insert e2 now k
      (CacheEntry.make k v now
        (if 0 < ttlOpt.getD e.defaultTTL then Option.some (ttlOpt.getD e.defaultTTL)
         else Option.none))
      (make_not_expired k v now _)
    simpa using hg
  · intro t ht hle
    subst ht
    unfold insertInto
    dsimp only
    rw [mapGet_mapSet_self]
    simp only [Option.getD_some]
    rw [if_neg (by omega : ¬ (0 : Int) < t)]

/-- A never-expiring entry big enough (with key "a") to breach a 1-byte
memory ceiling. -/
def roundtripEntryC6 : CacheEntry := CacheEntry.make "a" (Value.vStr "pad") 0 Option.none

/-- An LRU engine whose ceiling is breached and whose access-order
bookkeeping is empty, so eviction can produce no victim. -/
def roundtripEngineC6 : CacheEngine :=
  { mkEngine (StrategyState.lru []) 0 1 0 with store := [("a", roundtripEntryC6)] }

/-- Counterexample to claim C6 as stated: for the valid fresh key "b", `set`
fails (eviction exhaustion: ceiling breached, no victim available), so the
immediately following `get` returns the not-found sentinel instead of the
value. -/
theorem set_get_roundtrip_cex :
    isValidKey "b" = true ∧
    (roundtripEngineC6.set 50 "b" (Value.vNum 7) Option.none Option.none).1 = false ∧
    ((roundtripEngineC6.set 50 "b" (Value.vNum 7) Option.none Option.none).2.get 50 "b").1 =
      Option.none := by
  refine ⟨by decide, by decide, by decide⟩

/-- A fresh LFU engine with ample ceiling for the C6 witness. -/
def roundtripEngineW : CacheEngine := mkEngine (StrategyState.lfu []) 3600 104857600 0

/-- Witness for the amended C6: a successful `set` with TTL −5 round-trips
through `get` and stores a never-expiring entry. -/
theorem set_get_roundtrip_witness :
    ((roundtripEngineW.set 0 "k" (Value.vNum 7) (Option.some (-5)) Option.none).2.get 0 "k").1 =
      Option.some (Value.vNum 7) ∧
    mapGet (roundtripEngineW.set 0 "k" (Value.vNum 7) (Option.some (-5)) Option.none).2.store "k" =
      Option.some (CacheEntry.make "k" (Value.vNum 7) 0 Option.none) := by
  have h := set_get_roundtrip roundtripEngineW 0 "k" (Value.vNum 7) (Option.some (-5))
    Option.none (by decide)
  exact ⟨h.1, h.2 (-5) rfl (by decide)⟩

/-- Claim C1 (amended): when `set` triggers the eviction loop, eviction
exhaustion is surfaced: if `evictEntries` reports failure (nothing evicted and
the ceiling still breached), `set` returns false without inserting the new
entry, leaving the engine as eviction left it; only when `evictEntries`
reports success (at least one victim evicted, or ceiling relieved) does `set`
proceed with the insertion and report success — even if the ceiling is still
breached. -/
theorem set_eviction_exhaustion (e : CacheEngine) (now : Int) (k : String)
    (v : Value) (ttlOpt : Option Int) (ow : Option Bool)
    (hk : isValidKey k = true)
    (hmem : mapGet e.store k = Option.none)
    (hev : e.shouldEvictNow = true) :
    ((e.evictEntries).1 = false →
      e.set now k v ttlOpt ow = (false, (e.evictEntries).2)) ∧
    ((e.evictEntries).1 = true →
      (e.set now k v ttlOpt ow).1 = true ∧
      mapGet (e.set now k v ttlOpt ow).2.store k =
        Option.some (CacheEntry.make k v now
          (if 0 < ttlOpt.getD e.defaultTTL then Option.some (ttlOpt.getD e.defaultTTL)
           else Option.none))) := by
  constructor
  · intro hfail
    simp only [CacheEngine.set, hk, hmem]
    simp [hev, hfail]
  · intro hsucc
    simp only [CacheEngine.set, hk, hmem]
    simp [hev, hsucc, insertInto, mapGet_mapSet_self]

/-- The single never-expiring entry of the exhaustion scenario; its memory
footprint (key + value + 64-byte overhead) exceeds the 1-byte ceiling. -/
def exhaustEntryC1 : CacheEntry := CacheEntry.make "a" (Value.vStr "xxxx") 0 Option.none

/-- An LRU engine over that entry whose access-order list is empty, so
`selectVictim` has no victim to offer while the ceiling is breached. -/
def exhaustEngineC1 : CacheEngine :=
  { mkEngine (StrategyState.lru []) 0 1 0 with store := [("a", exhaustEntryC1)] }

/-- Counterexample to claim C1 as stated: the eviction loop is triggered
(ceiling breached), the strategy yields no victim, and `set` reports
failure — it does not proceed with the insertion ("b" is absent afterwards). -/
theorem set_eviction_exhaustion_cex :
    exhaustEngineC1.shouldEvictNow = true ∧
    (exhaustEngineC1.evictionStrategy.selectVictim exhaustEngineC1.store).1 = Option.none ∧
    (exhaustEngineC1.set 100 "b" Value.vNull Option.none Option.none).1 = false ∧
    mapHas (exhaustEngineC1.set 100 "b" Value.vNull Option.none Option.none).2.store "b" =
      false := by
  refine ⟨by decide, by decide, by decide, by decide⟩

/-- Witness for the amended C1 at the concrete exhaustion scenario. -/
theorem set_eviction_exhaustion_witness :
    exhaustEngineC1.set 100 "b" Value.vNull Option.none Option.none =
      (false, (exhaustEngineC1.evictEntries).2) :=
  (set_eviction_exhaustion exhaustEngineC1 100 "b" Value.vNull Option.none Option.none
    (by decide) (by decide) (by decide)).1 (by decide)

/-- The fresh LRU engine of the overwrite scenario (default TTL 3600 s,
100 MB ceiling). -/
def owEngine0 : CacheEngine := mkEngine (StrategyState.lru []) 3600 104857600 0

/-- The engine after `set("key1", "value1")` with default options. -/
def owEngine1 : CacheEngine :=
  (owEngine0.set 0 "key1" (Value.vStr "value1") Option.none Option.none).2

/-- Claim C2, evaluated at the failing input of the repository's own test
"should overwrite by default" (tests/unit/cache.test.ts): a second
`set("key1", "value2")` without an `overwrite` option returns false and
leaves the store unmodified — `get` still sees "value1" — because
`!options.overwrite` treats the absent option as false; with an explicit
`overwrite: true` the same call succeeds. -/
theorem set_overwrite_default_eval :
    (owEngine0.set 0 "key1" (Value.vStr "value1") Option.none Option.none).1 = true ∧
    (owEngine1.set 0 "key1" (Value.vStr "value2") Option.none Option.none).1 = false ∧
    (owEngine1.set 0 "key1" (Value.vStr "value2") Option.none Option.none).2 = owEngine1 ∧
    (owEngine1.get 0 "key1").1 = Option.some (Value.vStr "value1") ∧
    (owEngine1.set 0 "key1" (Value.vStr "value2") Option.none (Option.some true)).1 = true := by
  refine ⟨by decide, by decide, by decide, by decide, by decide⟩
